import Mathlib

/-!
Shallow embedding of the response parser `parse_analysis_output` from
`streamlit_app.py`.  Strings are modelled as `List Char`; the Python `dict`
(which preserves insertion order) is modelled as an ordered association list;
the fallible dictionary subscript `parsed_result[current_key]` is modelled in
the `Except` monad so that totality (absence of a `KeyError`) is a theorem
rather than an assumption.
-/

/-- Characters accepted by Python's `str.strip()` / `str.isspace()` (the
whitespace class used both by `line.strip()` and by `\s` in the header
pattern). -/
def pyIsSpace (c : Char) : Bool :=
  decide (c.toNat = 0x20 ∨ (0x09 ≤ c.toNat ∧ c.toNat ≤ 0x0d) ∨
    (0x1c ≤ c.toNat ∧ c.toNat ≤ 0x1f) ∨ c.toNat = 0x85 ∨ c.toNat = 0xa0 ∨
    c.toNat = 0x1680 ∨ (0x2000 ≤ c.toNat ∧ c.toNat ≤ 0x200a) ∨
    c.toNat = 0x2028 ∨ c.toNat = 0x2029 ∨ c.toNat = 0x202f ∨
    c.toNat = 0x205f ∨ c.toNat = 0x3000)

/-- Line-boundary characters of Python's `str.splitlines()`. -/
def isLineBreak (c : Char) : Bool :=
  decide (c.toNat = 0x0a ∨ c.toNat = 0x0d ∨ c.toNat = 0x0b ∨ c.toNat = 0x0c ∨
    c.toNat = 0x1c ∨ c.toNat = 0x1d ∨ c.toNat = 0x1e ∨ c.toNat = 0x85 ∨
    c.toNat = 0x2028 ∨ c.toNat = 0x2029)

/-- Worker for `pySplitlines`; `acc` holds the current line reversed.  A
`"\r\n"` pair counts as a single boundary, and a final line is emitted only
when non-empty, matching `str.splitlines()`. -/
def splitlinesAux : List Char → List Char → List (List Char)
  | acc, [] => if acc = [] then [] else [acc.reverse]
  | acc, '\r' :: '\n' :: rest => acc.reverse :: splitlinesAux [] rest
  | acc, c :: rest =>
      if isLineBreak c then acc.reverse :: splitlinesAux [] rest
      else splitlinesAux (c :: acc) rest

/-- `output_text.splitlines()`. -/
def pySplitlines (l : List Char) : List (List Char) :=
  splitlinesAux [] l

/-- `line.strip()`: drop leading then trailing whitespace. -/
def pyStrip (l : List Char) : List Char :=
  List.rdropWhile pyIsSpace (List.dropWhile pyIsSpace l)

/-- Backtracking core of the header pattern `^\s*(?P<header>.+?):\s*$`:
the lazy group `.+?` stops at the first colon whose remaining suffix is all
whitespace; `acc` holds the (reversed) characters consumed by `.+?` so far,
which must be non-empty for a match. -/
def headerCore : List Char → List Char → Option (List Char)
  | _, [] => none
  | acc, c :: rest =>
      if c = ':' ∧ acc ≠ [] ∧ rest.all pyIsSpace = true then some acc.reverse
      else headerCore (c :: acc) rest

/-- `header_pattern.match(line)`: the leading `\s*` consumes the leading
whitespace, then `headerCore` plays the lazy group, the colon and the
trailing `\s*$`.  Returns the captured `header` group on a match. -/
def headerMatch (l : List Char) : Option (List Char) :=
  headerCore [] (List.dropWhile pyIsSpace l)

/-- The `header_mapping` dict of the source, in insertion order. -/
def header_mapping : List (String × String) :=
  [("Required knowledge and skills", "QA_Knowledge-and-skills"),
   ("Key vocabulary terms", "QA_Key-Vocabulary"),
   ("Common misconceptions or challenges", "QA_Common-misconceptions"),
   ("Vocabulary Terms", "VA_Vocabulary-Terms"),
   ("Definitions", "VA_Definitions"),
   ("Special Attention", "VA_Special-Attention"),
   ("Teaching Approaches", "IR_Teaching-Approaches"),
   ("Scaffolding", "IR_Scaffolding"),
   ("Sequencing", "IR_Sequencing")]

/-- Python `str.lower()` (ASCII case folding, which covers every label). -/
def pyLower (l : List Char) : List Char := l.map Char.toLower

/-- The `for expected_header, csv_key in header_mapping.items()` loop with its
`break`/`else`: the first label whose lower-cased form equals the lower-cased
header text yields its csv key; otherwise `None`. -/
def lookupHeader (h : List Char) : Option String :=
  (header_mapping.find? (fun p => pyLower h == pyLower p.1.data)).map Prod.snd

/-- The `parsed_result` dict: an insertion-ordered association list. -/
abbrev Dict : Type := List (String × List Char)

/-- `parsed_result[k]` as a lookup: `none` models a `KeyError`. -/
def dictGet (d : Dict) (k : String) : Option (List Char) :=
  (d.find? (fun p => p.1 == k)).map Prod.snd

/-- `parsed_result[k] = v` for a key already present (order preserved). -/
def dictSet (d : Dict) (k : String) (v : List Char) : Dict :=
  d.map (fun p => if p.1 = k then (p.1, v) else p)

/-- The key list of a dict, in order. -/
def dictKeys (d : Dict) : List String := d.map Prod.fst

/-- The loop state of `parse_analysis_output`: the accumulating dict and the
`current_key` variable (`none` models Python's `None`). -/
structure ParseState where
  result : Dict
  current_key : Option String
  deriving DecidableEq

/-- Lines 71-75 of the source: read `parsed_result[current_key]` (a missing
key would raise `KeyError`), then either start the field with `line` or
append `"\n" + line`. -/
def processBody (d : Dict) (ck : String) (line : List Char) : Except String Dict :=
  match dictGet d ck with
  | none => Except.error "KeyError"
  | some v =>
      Except.ok (if v = [] then dictSet d ck line
                 else dictSet d ck (v ++ '\n' :: line))

/-- Lines 68-69 of the source: `line.startswith("-") or line.startswith("*")`
strips the single leading bullet character and then re-strips whitespace
(`line[1:].strip()`). -/
def bulletStrip (line : List Char) : List Char :=
  if line.head? = some '-' ∨ line.head? = some '*' then pyStrip line.tail
  else line

/-- One iteration of the `for line in output_text.splitlines()` loop:
strip, skip blanks, try the header pattern (before any bullet handling),
otherwise strip one leading bullet and append under `current_key`. -/
def parseLine (st : ParseState) (rawLine : List Char) : Except String ParseState :=
  let line := pyStrip rawLine
  if line = [] then Except.ok st
  else
    match headerMatch line with
    | some h => Except.ok ⟨st.result, lookupHeader (pyStrip h)⟩
    | none =>
        match st.current_key with
        | none => Except.ok st
        | some ck =>
            match processBody st.result ck (bulletStrip line) with
            | Except.error e => Except.error e
            | Except.ok d => Except.ok ⟨d, some ck⟩

/-- The whole loop over the split lines. -/
def parseLines : ParseState → List (List Char) → Except String ParseState
  | st, [] => Except.ok st
  | st, l :: rest =>
      match parseLine st l with
      | Except.error e => Except.error e
      | Except.ok st2 => parseLines st2 rest

/-- `{value: "" for value in header_mapping.values()}`. -/
def initResult : Dict := header_mapping.map (fun p => (p.2, ([] : List Char)))

/-- `{k: v.strip() for k, v in parsed_result.items()}`. -/
def finalStrip (d : Dict) : Dict := d.map (fun p => (p.1, pyStrip p.2))

/-- `parse_analysis_output` in the `Except` monad: `Except.error` marks the
(unreachable) `KeyError` of the dict subscript. -/
def parseE (text : List Char) : Except String Dict :=
  match parseLines ⟨initResult, none⟩ (pySplitlines text) with
  | Except.error e => Except.error e
  | Except.ok st => Except.ok (finalStrip st.result)

/-- The parser as the total function the Python source presents. -/
def parse_analysis_output (s : String) : Dict :=
  match parseE s.data with
  | Except.ok d => d
  | Except.error _ => []

/-- The nine output field keys, in the fixed serialization order. -/
def nineKeys : List String :=
  ["QA_Knowledge-and-skills", "QA_Key-Vocabulary", "QA_Common-misconceptions",
   "VA_Vocabulary-Terms", "VA_Definitions", "VA_Special-Attention",
   "IR_Teaching-Approaches", "IR_Scaffolding", "IR_Sequencing"]

/-- A raw line that the parser recognizes as one of the nine section
headers. -/
def isRecognizedHeaderLine (rawLine : List Char) : Bool :=
  match headerMatch (pyStrip rawLine) with
  | some h => (lookupHeader (pyStrip h)).isSome
  | none => false

/-- Loop invariant: the dict holds exactly the nine keys in order, and the
current key (when set) is one of them. -/
def goodState (st : ParseState) : Prop :=
  dictKeys st.result = nineKeys ∧ ∀ k, st.current_key = some k → k ∈ nineKeys

/-- C5 as stated: every line whose trimmed form ends in a colon is consumed
as a header candidate, contributing no content, with the current field set
from the captured label (everything before the trailing colon, trimmed),
hence reset to `none` when that label is unrecognized. -/
def c5_property : Prop :=
  ∀ (st : ParseState) (rawLine : List Char),
    (pyStrip rawLine).getLast? = some ':' →
    parseLine st rawLine =
      Except.ok ⟨st.result, lookupHeader (pyStrip (pyStrip rawLine).dropLast)⟩

/-!  Lemmas about whitespace stripping. -/

lemma dropWhile_pyStrip (l : List Char) :
    List.dropWhile pyIsSpace (pyStrip l) = pyStrip l := by
  unfold pyStrip
  cases hs : List.rdropWhile pyIsSpace (List.dropWhile pyIsSpace l) with
  | nil => simp
  | cons c t =>
      obtain ⟨u, hu⟩ := List.rdropWhile_prefix pyIsSpace (List.dropWhile pyIsSpace l)
      rw [hs] at hu
      have hidem := List.dropWhile_idempotent pyIsSpace l
      rw [← hu, List.cons_append, List.dropWhile_cons] at hidem
      by_cases hc : pyIsSpace c = true
      · rw [if_pos hc] at hidem
        have h1 : (List.dropWhile pyIsSpace (t ++ u)).length ≤ (t ++ u).length :=
          List.IsSuffix.length_le (List.dropWhile_suffix pyIsSpace)
        rw [hidem] at h1
        simp at h1
      · rw [List.dropWhile_cons, if_neg hc]

lemma pyStrip_idem (l : List Char) : pyStrip (pyStrip l) = pyStrip l := by
  show List.rdropWhile pyIsSpace (List.dropWhile pyIsSpace (pyStrip l)) = pyStrip l
  rw [dropWhile_pyStrip l]
  unfold pyStrip
  exact List.rdropWhile_idempotent pyIsSpace _

/-!  Lemmas about the ordered dict. -/

lemma dictKeys_dictSet (d : Dict) (k : String) (v : List Char) :
    dictKeys (dictSet d k v) = dictKeys d := by
  unfold dictKeys dictSet
  rw [List.map_map]
  apply List.map_congr_left
  intro p _
  by_cases h : p.1 = k
  · simp [h]
  · simp [h]

lemma dictGet_mem (d : Dict) (k : String) (h : k ∈ dictKeys d) :
    ∃ v, dictGet d k = some v := by
  induction d with
  | nil => simp [dictKeys] at h
  | cons q t ih =>
      by_cases hq : q.1 = k
      · exact ⟨q.2, by simp [dictGet, List.find?_cons, beq_iff_eq.mpr hq]⟩
      · have hq2 : (q.1 == k) = false := beq_eq_false_iff_ne.mpr hq
        have hmem : k ∈ dictKeys t := by
          unfold dictKeys at h
          rw [List.map_cons, List.mem_cons] at h
          rcases h with h | h
          · exact absurd h.symm hq
          · exact h
        obtain ⟨v, hv⟩ := ih hmem
        refine ⟨v, ?_⟩
        simp only [dictGet, List.find?_cons, hq2]
        exact hv

lemma dictKeys_finalStrip (d : Dict) : dictKeys (finalStrip d) = dictKeys d := by
  unfold dictKeys finalStrip
  rw [List.map_map]
  apply List.map_congr_left
  intro p _
  rfl

lemma dictGet_finalStrip (d : Dict) (k : String) (v : List Char)
    (h : dictGet (finalStrip d) k = some v) : ∃ w, v = pyStrip w := by
  induction d with
  | nil => exact absurd h (by simp [finalStrip, dictGet])
  | cons q t ih =>
      have step : dictGet (finalStrip (q :: t)) k =
          if q.1 = k then some (pyStrip q.2) else dictGet (finalStrip t) k := by
        by_cases hq : q.1 = k
        · simp only [finalStrip, List.map_cons, dictGet, List.find?_cons,
            beq_iff_eq.mpr hq, if_pos hq]
          rfl
        · simp only [finalStrip, List.map_cons, dictGet, List.find?_cons,
            beq_eq_false_iff_ne.mpr hq, if_neg hq]
      rw [step] at h
      by_cases hq : q.1 = k
      · rw [if_pos hq] at h
        exact ⟨q.2, (Option.some.inj h).symm⟩
      · rw [if_neg hq] at h
        exact ih h

lemma lookupHeader_mem (h : List Char) (k : String) (hk : lookupHeader h = some k) :
    k ∈ nineKeys := by
  unfold lookupHeader at hk
  cases hf : List.find? (fun p => pyLower h == pyLower p.1.data) header_mapping with
  | none => rw [hf] at hk; simp at hk
  | some q =>
      rw [hf] at hk
      simp only [Option.map_some'] at hk
      have hq := List.mem_of_find?_eq_some hf
      have hall : ∀ p ∈ header_mapping, p.2 ∈ nineKeys := by decide
      rw [← Option.some.inj hk]
      exact hall q hq

/-!  How `parseLine` acts in each of its four cases. -/

lemma parseLine_blank (st : ParseState) (l : List Char) (h : pyStrip l = []) :
    parseLine st l = Except.ok st := by
  simp [parseLine, h]

lemma parseLine_header (st : ParseState) (l hd : List Char)
    (h0 : pyStrip l ≠ []) (h1 : headerMatch (pyStrip l) = some hd) :
    parseLine st l = Except.ok ⟨st.result, lookupHeader (pyStrip hd)⟩ := by
  simp [parseLine, h0, h1]

lemma parseLine_nobody (st : ParseState) (l : List Char)
    (h0 : pyStrip l ≠ []) (h1 : headerMatch (pyStrip l) = none)
    (h2 : st.current_key = none) :
    parseLine st l = Except.ok st := by
  simp [parseLine, h0, h1, h2]

lemma parseLine_body (st : ParseState) (l : List Char) (ck : String)
    (h0 : pyStrip l ≠ []) (h1 : headerMatch (pyStrip l) = none)
    (h2 : st.current_key = some ck) :
    parseLine st l =
      match processBody st.result ck (bulletStrip (pyStrip l)) with
      | Except.error e => Except.error e
      | Except.ok d => Except.ok ⟨d, some ck⟩ := by
  simp [parseLine, h0, h1, h2]

/-!  Totality: the dict subscript can never miss, so the loop never fails
and preserves the key list. -/

lemma processBody_ok (d : Dict) (ck : String) (line : List Char)
    (h : ck ∈ dictKeys d) :
    ∃ d2, processBody d ck line = Except.ok d2 ∧ dictKeys d2 = dictKeys d := by
  obtain ⟨v, hv⟩ := dictGet_mem d ck h
  unfold processBody
  rw [hv]
  by_cases hv0 : v = []
  · exact ⟨dictSet d ck line, by simp [hv0], dictKeys_dictSet d ck line⟩
  · exact ⟨dictSet d ck (v ++ '\n' :: line), by simp [hv0],
      dictKeys_dictSet d ck _⟩

lemma parseLine_good (st : ParseState) (l : List Char) (h : goodState st) :
    ∃ st2, parseLine st l = Except.ok st2 ∧ goodState st2 := by
  by_cases hb : pyStrip l = []
  · exact ⟨st, parseLine_blank st l hb, h⟩
  · cases hm : headerMatch (pyStrip l) with
    | some hd =>
        refine ⟨⟨st.result, lookupHeader (pyStrip hd)⟩,
          parseLine_header st l hd hb hm, h.1, ?_⟩
        intro k hk
        exact lookupHeader_mem (pyStrip hd) k hk
    | none =>
        cases hck : st.current_key with
        | none => exact ⟨st, parseLine_nobody st l hb hm hck, h⟩
        | some ck =>
            have hckmem : ck ∈ nineKeys := h.2 ck hck
            have hmem : ck ∈ dictKeys st.result := by rw [h.1]; exact hckmem
            obtain ⟨d2, hd2, hkeys⟩ :=
              processBody_ok st.result ck (bulletStrip (pyStrip l)) hmem
            refine ⟨⟨d2, some ck⟩, ?_, ?_, ?_⟩
            · rw [parseLine_body st l ck hb hm hck, hd2]
            · rw [hkeys]; exact h.1
            · intro k hk
              exact (Option.some.inj hk) ▸ hckmem

lemma parseLines_good (ls : List (List Char)) : ∀ st : ParseState, goodState st →
    ∃ st2, parseLines st ls = Except.ok st2 ∧ goodState st2 := by
  induction ls with
  | nil => exact fun st h => ⟨st, rfl, h⟩
  | cons l rest ih =>
      intro st h
      obtain ⟨st2, h2, hg2⟩ := parseLine_good st l h
      obtain ⟨st3, h3, hg3⟩ := ih st2 hg2
      refine ⟨st3, ?_, hg3⟩
      unfold parseLines
      rw [h2]
      exact h3

lemma goodState_init : goodState ⟨initResult, none⟩ := by
  constructor
  · decide
  · intro k hk
    exact Option.noConfusion hk

lemma parseE_ok (text : List Char) :
    ∃ st, parseLines ⟨initResult, none⟩ (pySplitlines text) = Except.ok st ∧
      goodState st ∧ parseE text = Except.ok (finalStrip st.result) := by
  obtain ⟨st, h1, h2⟩ :=
    parseLines_good (pySplitlines text) ⟨initResult, none⟩ goodState_init
  refine ⟨st, h1, h2, ?_⟩
  unfold parseE
  rw [h1]

/-!  Behaviour when no recognized header has been seen. -/

lemma parseLine_unrecognized (d : Dict) (l : List Char)
    (h : isRecognizedHeaderLine l = false) :
    parseLine ⟨d, none⟩ l = Except.ok ⟨d, none⟩ := by
  by_cases hb : pyStrip l = []
  · exact parseLine_blank _ l hb
  · cases hm : headerMatch (pyStrip l) with
    | none => exact parseLine_nobody ⟨d, none⟩ l hb hm rfl
    | some hd =>
        have hval : isRecognizedHeaderLine l = (lookupHeader (pyStrip hd)).isSome := by
          unfold isRecognizedHeaderLine
          rw [hm]
        cases hll : lookupHeader (pyStrip hd) with
        | none => rw [parseLine_header ⟨d, none⟩ l hd hb hm, hll]
        | some k =>
            rw [h, hll] at hval
            simp at hval
    
lemma parseLines_unrecognized (ls : List (List Char)) (d : Dict)
    (h : ∀ l ∈ ls, isRecognizedHeaderLine l = false) :
    parseLines ⟨d, none⟩ ls = Except.ok ⟨d, none⟩ := by
  induction ls with
  | nil => rfl
  | cons l rest ih =>
      unfold parseLines
      rw [parseLine_unrecognized d l (h l (by simp))]
      exact ih (fun x hx => h x (by simp [hx]))

/-!  The regular expression on a stripped line that ends in a colon. -/

lemma headerCore_colon (l : List Char) : ∀ acc : List Char,
    l.getLast? = some ':' → (acc ≠ [] ∨ 2 ≤ l.length) →
    headerCore acc l = some (acc.reverse ++ l.dropLast) := by
  induction l with
  | nil => intro acc h1 _; simp at h1
  | cons c rest ih =>
      intro acc h1 h2
      cases rest with
      | nil =>
          have hc : c = ':' := by simpa using h1
          have hacc : acc ≠ [] := by
            rcases h2 with h | h
            · exact h
            · simp at h
          unfold headerCore
          rw [if_pos ⟨hc, hacc, by simp⟩]
          simp
      | cons r rs =>
          rw [List.getLast?_cons_cons] at h1
          have hmem : (':' : Char) ∈ r :: rs := List.mem_of_mem_getLast? h1
          have hall : ((r :: rs).all pyIsSpace) = false := by
            cases hba : (r :: rs).all pyIsSpace with
            | false => rfl
            | true =>
                have := (List.all_eq_true.mp hba) ':' hmem
                exact absurd this (by decide)
          unfold headerCore
          rw [if_neg ?hneg]
          case hneg =>
            intro hcon
            rw [hall] at hcon
            exact Bool.false_ne_true hcon.2.2
          rw [ih (c :: acc) h1 (Or.inl (by simp))]
          rw [List.reverse_cons,
            List.dropLast_cons_of_ne_nil (by simp : (r : Char) :: rs ≠ [])]
          simp

lemma headerMatch_pyStrip (l : List Char) :
    headerMatch (pyStrip l) = headerCore [] (pyStrip l) := by
  unfold headerMatch
  rw [dropWhile_pyStrip]

/-!  The claims. -/

/-- C1: for every input string, `parse_analysis_output` returns a record
holding exactly the nine defined field keys, in order, each mapped to a
(possibly empty) string value — never a missing key, never a null value. -/
theorem C1_exactly_nine_keys (s : String) :
    dictKeys (parse_analysis_output s) = nineKeys := by
  obtain ⟨st, _, hg, hE⟩ := parseE_ok s.data
  unfold parse_analysis_output
  rw [hE]
  show dictKeys (finalStrip st.result) = nineKeys
  rw [dictKeys_finalStrip]
  exact hg.1

/-- C2: the parser is total — on every input string, including empty or
malformed ones, the fallible embedding returns `Except.ok` (the modelled
`KeyError` of the dict subscript is unreachable), so no exception is
raised. -/
theorem C2_parse_total (s : String) :
    ∃ d, parseE s.data = Except.ok d := by
  obtain ⟨st, _, _, hE⟩ := parseE_ok s.data
  exact ⟨finalStrip st.result, hE⟩

/-- C3: when no line of the input is recognized as one of the nine header
labels, the parser succeeds (no error) and every one of the nine fields is
the empty string. -/
theorem C3_no_recognized_headers (s : String)
    (h : ∀ l ∈ pySplitlines s.data, isRecognizedHeaderLine l = false) :
    parseE s.data = Except.ok (nineKeys.map (fun k => (k, ([] : List Char)))) ∧
    parse_analysis_output s = nineKeys.map (fun k => (k, ([] : List Char))) := by
  have h1 := parseLines_unrecognized (pySplitlines s.data) initResult h
  have h2 : parseE s.data = Except.ok (finalStrip initResult) := by
    unfold parseE
    rw [h1]
  have h3 : finalStrip initResult = nineKeys.map (fun k => (k, ([] : List Char))) := by
    decide
  rw [h3] at h2
  refine ⟨h2, ?_⟩
  unfold parse_analysis_output
  rw [h2]

/-- Witness for C3 at a concrete input with no recognized header lines. -/
theorem C3_witness :
    parse_analysis_output "Intro:\nhello world" =
      nineKeys.map (fun k => (k, ([] : List Char))) :=
  (C3_no_recognized_headers "Intro:\nhello world" (by decide)).2

/-- C4: on the given input, body lines under the unrecognized header
`Something Else:` are discarded and the repeated `Definitions:` header
appends (the field is `foo\nbaz`); in general, `processBody` on a non-empty
accumulated value of any field appends `"\n" + line` instead of
overwriting. -/
theorem C4_repeated_header_appends :
    dictGet (parse_analysis_output "Definitions:\nfoo\nSomething Else:\nbar\nDefinitions:\nbaz")
        "VA_Definitions" = some (String.data "foo\nbaz") ∧
    ∀ (d : Dict) (k : String) (v line : List Char),
      dictGet d k = some v → v ≠ [] →
      processBody d k line = Except.ok (dictSet d k (v ++ '\n' :: line)) := by
  constructor
  · decide
  · intro d k v line hget hne
    unfold processBody
    rw [hget]
    simp [hne]

/-- Witness for C4's appending clause at a concrete dict and line. -/
theorem C4_witness :
    processBody [("VA_Definitions", String.data "foo")] "VA_Definitions"
        (String.data "baz") =
      Except.ok [("VA_Definitions", String.data "foo\nbaz")] := by
  have h := C4_repeated_header_appends.2 [("VA_Definitions", String.data "foo")]
    "VA_Definitions" (String.data "foo") (String.data "baz") (by decide) (by decide)
  exact h

/-- C5 (corrected): the claim as stated is false for the line `":"`, whose
trimmed form ends in a colon but which the pattern `.+?:` rejects (the lazy
group needs at least one character), so it is treated as body text: it DOES
contribute content and does NOT reset the current field. -/
theorem C5_counterexample : ¬ c5_property := by
  intro h
  have E := h ⟨initResult, some "VA_Definitions"⟩ (String.data ":") (by decide)
  have E2 := congrArg Except.toOption E
  exact absurd E2 (by decide)

/-- C5 (amended): every line whose trimmed form ends in a colon AND has at
least one character before that colon is consumed as a header candidate:
it contributes no content to any field, and the current field context is
set from the captured label (everything before the trailing colon,
trimmed) — in particular to `none` when that label is unrecognized, as for
the bulleted line `- Definitions:`, since header detection runs before
bullet stripping. -/
theorem C5_amended (st : ParseState) (rawLine : List Char)
    (h1 : (pyStrip rawLine).getLast? = some ':')
    (h2 : 2 ≤ (pyStrip rawLine).length) :
    parseLine st rawLine =
      Except.ok ⟨st.result, lookupHeader (pyStrip (pyStrip rawLine).dropLast)⟩ := by
  have hne : pyStrip rawLine ≠ [] := by
    intro hcon
    rw [hcon] at h1
    simp at h1
  have hm : headerMatch (pyStrip rawLine) = some ((pyStrip rawLine).dropLast) := by
    rw [headerMatch_pyStrip]
    have h3 := headerCore_colon (pyStrip rawLine) [] h1 (Or.inr h2)
    simpa using h3
  exact parseLine_header st rawLine _ hne hm

/-- Witness for C5's amended claim: the bulleted line `- Definitions:` is
consumed as an unrecognized header and resets the field context. -/
theorem C5_witness :
    parseLine ⟨initResult, some "VA_Definitions"⟩ (String.data "- Definitions:") =
      Except.ok ⟨initResult, none⟩ := by
  have h := C5_amended ⟨initResult, some "VA_Definitions"⟩
    (String.data "- Definitions:") (by decide) (by decide)
  exact h

/-- C6: on `"Key vocabulary terms:\n- apple\n- banana"` the key-vocabulary
field is `apple\nbanana`: bullets are stripped and body lines are joined by
a newline in order. -/
theorem C6_bullet_join :
    dictGet (parse_analysis_output "Key vocabulary terms:\n- apple\n- banana")
      "QA_Key-Vocabulary" = some (String.data "apple\nbanana") := by
  decide

/-- C7: the body line `* term: meaning` under the recognized header
`Teaching Approaches:` is appended as `term: meaning` (only the bullet and
following whitespace stripped), and its inner colon does not make it a
header because the line does not end with a colon. -/
theorem C7_inner_colon_not_header :
    dictGet (parse_analysis_output "Teaching Approaches:\n* term: meaning")
        "IR_Teaching-Approaches" = some (String.data "term: meaning") ∧
    headerMatch (pyStrip (String.data "* term: meaning")) = none := by
  constructor
  · decide
  · decide

/-- C8: header matching is case-insensitive and whole-label: labels with
equal case foldings match the same field (so any case variant parses the
same), `TEACHING APPROACHES:` parses like `Teaching Approaches:`, and a
recognized label occurring only as a proper substring of a longer captured
label (such as `Advanced Sequencing`) does not match. -/
theorem C8_case_insensitive_whole_label :
    (∀ a b : List Char, pyLower a = pyLower b → lookupHeader a = lookupHeader b) ∧
    parse_analysis_output "TEACHING APPROACHES:\n- x" =
      parse_analysis_output "Teaching Approaches:\n- x" ∧
    lookupHeader (String.data "Advanced Sequencing") = none ∧
    lookupHeader (String.data "Sequencing") = some "IR_Sequencing" := by
  refine ⟨?_, by decide, by decide, by decide⟩
  intro a b hab
  unfold lookupHeader
  have hfun : (fun p : String × String => pyLower a == pyLower p.1.data) =
      (fun p : String × String => pyLower b == pyLower p.1.data) := by
    funext p
    rw [hab]
  rw [hfun]

/-- Witness for C8's case-insensitivity clause at a concrete case variant. -/
theorem C8_witness :
    lookupHeader (String.data "TEACHING approaches") =
      lookupHeader (String.data "Teaching Approaches") :=
  C8_case_insensitive_whole_label.1 (String.data "TEACHING approaches")
    (String.data "Teaching Approaches") (by decide)

/-- C9: every field value of the returned record is already trimmed, so
re-trimming any field of the output changes nothing. -/
theorem C9_output_trimmed (s : String) (k : String) (v : List Char)
    (h : dictGet (parse_analysis_output s) k = some v) :
    pyStrip v = v := by
  obtain ⟨st, _, _, hE⟩ := parseE_ok s.data
  unfold parse_analysis_output at h
  rw [hE] at h
  have h2 : dictGet (finalStrip st.result) k = some v := h
  obtain ⟨w, hw⟩ := dictGet_finalStrip st.result k v h2
  rw [hw]
  exact pyStrip_idem w

/-- Witness for C9 at a concrete parse output field. -/
theorem C9_witness : pyStrip (String.data "foo") = String.data "foo" :=
  C9_output_trimmed "Definitions:\nfoo" "VA_Definitions" (String.data "foo")
    (by decide)

/-- C10: a body line consisting solely of a bullet marker is appended as an
empty segment, so on `"Definitions:\nfoo\n-\nbar"` the definitions field is
`foo\n\nbar`, containing an internal blank line. -/
theorem C10_lone_bullet_blank_segment :
    dictGet (parse_analysis_output "Definitions:\nfoo\n-\nbar")
      "VA_Definitions" = some (String.data "foo\n\nbar") := by
  decide
